import Mathlib

/-!
# realitycore: geometric helpers of `_realitycore.c`

A shallow embedding of the numeric core of `src/_realitycore.c`, in two readings of a C
`double`.

* Exact arithmetic: a `double` is an element of a linearly ordered field `α`; theorems that
  need `sqrt`, `sin`, `cos` are stated over `ℝ`. The libm functions `sqrt`, `sin`, `cos` and
  the constant `M_PI` come from `math.h`, not from this file, so the embedded functions take
  them as arguments. `pow(v, 2)` is `v ^ 2`. Functions that divide or index a list return
  `Option`: `none` stands for a division whose divisor is zero or a list access out of
  range.
* Binary64 arithmetic (`F64`): a `double` is an IEEE-754 binary64 value and every operation
  rounds, overflows and propagates NaN. The polygon functions are embedded a second time on
  `F64`; this reading decides what the code returns where rounding or overflow matters.

A Python 3-tuple of floats is a triple, a polygon is a list of pairs.
-/

namespace Realitycore

variable {α : Type} [LinearOrderedField α]

/-- A position or rotation: the Python tuple `(x, y, z)`. -/
abbrev Point3 (α : Type) : Type := α × α × α

/-- A polygon vertex: the Python tuple `(x, y)`. -/
abbrev Point2 (α : Type) : Type := α × α

/-- Largest finite IEEE-754 binary64 value, `DBL_MAX` of `float.h`. -/
def DBL_MAX : α := 2 ^ 1024 - 2 ^ 971

/-- Function `fmin` as the source defines it (lines 28-29). -/
def fmin (left right : α) : α := if left < right then left else right

/-- Function `fmax` as the source defines it (lines 25-26). -/
def fmax (left right : α) : α := if left > right then left else right

/-- Division of doubles that records a zero divisor as `none`. -/
def fdiv (num den : α) : Option α := if den = 0 then none else some (num / den)

/-- Source function `realitycore_calcDistance` (lines 37-55). -/
def calcDistance (sqrt : α → α) : Point3 α → Point3 α → α
  | (x1, y1, z1), (x2, y2, z2) =>
    let dx := x1 - x2
    let dy := y1 - y2
    let dz := z1 - z2
    sqrt ((dx * dx) + (dy * dy) + (dz * dz))

/-- Source function `realitycore_calcDistanceSquared` (lines 62-80). -/
def calcDistanceSquared : Point3 α → Point3 α → α
  | (x1, y1, z1), (x2, y2, z2) =>
    let dx := x1 - x2
    let dy := y1 - y2
    let dz := z1 - z2
    (dx * dx) + (dy * dy) + (dz * dz)

/-- Source function `realitycore_calcHorizDistance` (lines 87-104). -/
def calcHorizDistance (sqrt : α → α) : Point3 α → Point3 α → α
  | (x1, _, z1), (x2, _, z2) =>
    let dx := x1 - x2
    let dz := z1 - z2
    sqrt ((dx * dx) + (dz * dz))

/-- Source function `realitycore_calcHorizDistanceSquared` (lines 111-128). -/
def calcHorizDistanceSquared : Point3 α → Point3 α → α
  | (x1, _, z1), (x2, _, z2) =>
    let dx := x1 - x2
    let dz := z1 - z2
    (dx * dx) + (dz * dz)

/-- Source function `realitycore_isClose` (lines 178-214). -/
def isClose (pos1 pos2 : Point3 α) (distance : α) : Bool :=
  let calc_distance := calcDistanceSquared pos1 pos2
  if distance ^ 2 ≥ calc_distance then true else false

/-- Source function `realitycore_isCloseHoriz` (lines 223-259). -/
def isCloseHoriz (pos1 pos2 : Point3 α) (distance : α) : Bool :=
  let calc_distance := calcHorizDistanceSquared pos1 pos2
  if distance ^ 2 ≥ calc_distance then true else false

/-- One pass of the loop body of `realitycore_isPointInPolygon` (lines 292-302), in exact
arithmetic: the state is the pair `(j, odd_num_edges)`; the pass ends with `j = i`.
The same pass with rounding and overflow is `F64.isPointInPolygon.body`. -/
def isPointInPolygon.body (pos_x pos_y : α) (polygon : List (Point2 α))
    (st : Nat × Bool) (i : Nat) : Option (Nat × Bool) := do
  let j := st.1
  let odd_num_edges := st.2
  let vert1 ← polygon[i]?
  let vert2 ← polygon[j]?
  let vert1_x := vert1.1
  let vert1_y := vert1.2
  let vert2_x := vert2.1
  let vert2_y := vert2.2
  if decide (vert1_y > pos_y) != decide (vert2_y > pos_y) then
    let q ← fdiv ((vert2_x - vert1_x) * (pos_y - vert1_y)) (vert2_y - vert1_y)
    if pos_x < q + vert1_x then
      pure (i, !odd_num_edges)
    else
      pure (i, odd_num_edges)
  else
    pure (i, odd_num_edges)

/-- Source function `realitycore_isPointInPolygon` (lines 268-313), in exact arithmetic:
`for (i = 0, j = num_vertices-1; i < num_vertices; j = i++)`.
For an empty list the loop body never runs, so the start value of `j` is not read.
The same function with rounding and overflow is `F64.isPointInPolygon`. -/
def isPointInPolygon (pos : Point3 α) (polygon : List (Point2 α)) : Option Bool :=
  let pos_x := pos.1
  let pos_y := pos.2.2
  let num_vertices := polygon.length
  ((List.range num_vertices).foldlM (isPointInPolygon.body pos_x pos_y polygon)
    (num_vertices - 1, false)).map Prod.snd

/-- Source function `REALITYCORE__nearestPointDistance` (lines 321-361), in exact
arithmetic. The same function with rounding and overflow is `F64.nearestPointDistance`. -/
def REALITYCORE__nearestPointDistance (sqrt : α → α) (x y x1 y1 x2 y2 : α) : Option α := do
  let a := x - x1
  let b := y - y1
  let c := x2 - x1
  let d := y2 - y1
  let dot := a * c + b * d
  let square_len := c * c + d * d
  let proj_dist ← if 0 ≠ square_len then fdiv dot square_len else pure (-1)
  let near : α × α :=
    if 0 > proj_dist then (x1, y1)
    else if 1 < proj_dist then (x2, y2)
    else (x1 + proj_dist * c, y1 + proj_dist * d)
  let xx := near.1
  let yy := near.2
  pure (sqrt ((x - xx) ^ 2 + (y - yy) ^ 2))

/-- One pass of the loop body of `realitycore_calcDistanceToPolygon` (lines 383-390), in
exact arithmetic. -/
def calcDistanceToPolygon.body (sqrt : α → α) (pos_x pos_y : α) (polygon : List (Point2 α))
    (min_distance : α) (i : Nat) : Option α := do
  let num_vertices := polygon.length
  let vert1 ← polygon[i]?
  let vert2 ← polygon[(i + 1) % num_vertices]?
  let dist ← REALITYCORE__nearestPointDistance sqrt pos_x pos_y vert1.1 vert1.2 vert2.1 vert2.2
  pure (fmin min_distance dist)

/-- Source function `realitycore_calcDistanceToPolygon` (lines 363-394), in exact
arithmetic. The same function with rounding and overflow is `F64.calcDistanceToPolygon`. -/
def calcDistanceToPolygon (sqrt : α → α) (pos : Point3 α) (polygon : List (Point2 α)) :
    Option α :=
  let pos_x := pos.1
  let pos_y := pos.2.2
  let num_vertices := polygon.length
  (List.range num_vertices).foldlM (calcDistanceToPolygon.body sqrt pos_x pos_y polygon) DBL_MAX

/-- A binary64 value: a finite number (a rational, meant to be representable), an infinity
or NaN. -/
inductive F64 where
  | fin (q : ℚ)
  | inf (negative : Bool)
  | nan
  deriving DecidableEq

namespace F64

/-- The power `2 ^ e` for an integer exponent. -/
def pow2 (e : ℤ) : ℚ :=
  if 0 ≤ e then ((2 ^ e.toNat : ℕ) : ℚ) else 1 / ((2 ^ (-e).toNat : ℕ) : ℚ)

/-- Halving until the number is below 2, at most `fuel` times. -/
def log2Aux : ℕ → ℕ → ℕ
  | 0, _ => 0
  | fuel + 1, n => if 2 ≤ n then log2Aux fuel (n / 2) + 1 else 0

/-- For `n ≥ 1`, the `e` with `2 ^ e ≤ n < 2 ^ (e + 1)`. -/
def log2 (n : ℕ) : ℕ := log2Aux n n

/-- For a positive rational `q`, the integer `e` with `2 ^ e ≤ q < 2 ^ (e + 1)`. -/
def binade (q : ℚ) : ℤ :=
  let e0 : ℤ := (log2 q.num.natAbs : ℤ) - (log2 q.den : ℤ)
  if q < pow2 e0 then e0 - 1 else e0

/-- The nearest integer, a tie going to the even one. -/
def roundHalfEven (q : ℚ) : ℤ :=
  let f := ⌊q⌋
  let r := q - f
  if r < 1 / 2 then f else if 1 / 2 < r then f + 1 else if f % 2 = 0 then f else f + 1

/-- Rounding of an exact result to binary64: 53 significant bits, exponents from -1022
(gradual underflow below), round to nearest even, overflow to an infinity. -/
def round (q : ℚ) : F64 :=
  if q = 0 then fin 0 else
    let a := |q|
    let e := max (binade a) (-1022)
    let ulp := pow2 (e - 52)
    let v := (roundHalfEven (a / ulp) : ℚ) * ulp
    if pow2 1024 ≤ v then inf (decide (q < 0)) else fin (if q < 0 then -v else v)

/-- Negation. -/
def neg : F64 → F64
  | fin q => fin (-q)
  | inf s => inf (!s)
  | nan => nan

/-- Addition, the C operator `+`. -/
def add : F64 → F64 → F64
  | fin a, fin b => round (a + b)
  | fin _, inf s => inf s
  | inf s, fin _ => inf s
  | inf s, inf t => if s = t then inf s else nan
  | _, _ => nan

/-- Subtraction, the C operator `-`. -/
def sub (a b : F64) : F64 := add a (neg b)

/-- Multiplication, the C operator `*`. -/
def mul : F64 → F64 → F64
  | fin a, fin b => round (a * b)
  | fin a, inf s => if a = 0 then nan else inf (decide (a < 0) != s)
  | inf s, fin b => if b = 0 then nan else inf (s != decide (b < 0))
  | inf s, inf t => inf (s != t)
  | _, _ => nan

/-- Division, the C operator `/`. -/
def div : F64 → F64 → F64
  | fin a, fin b =>
    if b = 0 then (if a = 0 then nan else inf (decide (a < 0))) else round (a / b)
  | fin _, inf _ => fin 0
  | inf s, fin b => inf (s != decide (b < 0))
  | _, _ => nan

/-- Comparison, the C operator `<`: false as soon as one side is NaN. -/
def lt : F64 → F64 → Bool
  | fin a, fin b => decide (a < b)
  | fin _, inf t => !t
  | inf s, fin _ => s
  | inf s, inf t => s && !t
  | _, _ => false

/-- Comparison, the C operator `>`. -/
def gt (a b : F64) : Bool := lt b a

/-- Comparison, the C operator `!=`: true as soon as one side is NaN. -/
def ne : F64 → F64 → Bool
  | nan, _ => true
  | _, nan => true
  | a, b => decide (a ≠ b)

/-- Integer square root, one bit at a time from bit `b - 1` down. -/
def isqrtAux (n : ℕ) : ℕ → ℕ → ℕ
  | 0, r => r
  | b + 1, r =>
    if (r + 2 ^ b) * (r + 2 ^ b) ≤ n then isqrtAux n b (r + 2 ^ b) else isqrtAux n b r

/-- The largest `r` with `r * r ≤ n`. -/
def isqrt (n : ℕ) : ℕ := isqrtAux n (log2 n / 2 + 1) 0

/-- Function `sqrt` of libm, correctly rounded. -/
def sqrt : F64 → F64
  | fin q =>
    if q < 0 then nan else if q = 0 then fin 0 else
      let e := max (binade q / 2) (-1022)
      let ulp := pow2 (e - 52)
      let t := q / (ulp * ulp)
      let n : ℚ := (isqrt ⌊t⌋.toNat : ℕ)
      let half := (n + 1 / 2) * (n + 1 / 2)
      let m : ℚ :=
        if t < half then n else if half < t then n + 1
        else if isqrt ⌊t⌋.toNat % 2 = 0 then n else n + 1
      fin (m * ulp)
  | inf s => if s then nan else inf false
  | nan => nan

/-- Function `pow(v, 2)` of libm, taken as the rounded product `v * v`. -/
def sq (v : F64) : F64 := mul v v

/-- Function `fmin` of libm (C99): a NaN argument is ignored. -/
def fmin : F64 → F64 → F64
  | nan, b => b
  | a, nan => a
  | a, b => if lt a b then a else b

/-- Function `fmin` as the source defines it under `_MSC_VER` (lines 28-29). -/
def fminMsvc (left right : F64) : F64 := if lt left right then left else right

/-- Constant `DBL_MAX` of `float.h`. -/
def dblMax : F64 := fin (2 ^ 1024 - 2 ^ 971)

/-- A decimal literal, or a Python float given by its decimal expansion, as a double. -/
def ofDecimal (q : ℚ) : F64 := round q

instance : Add F64 := ⟨add⟩
instance : Sub F64 := ⟨sub⟩
instance : Mul F64 := ⟨mul⟩
instance : Div F64 := ⟨div⟩

/-- One pass of the loop body of `realitycore_isPointInPolygon` (lines 292-302) on
doubles. -/
def isPointInPolygon.body (pos_x pos_y : F64) (polygon : List (F64 × F64))
    (st : Nat × Bool) (i : Nat) : Option (Nat × Bool) := do
  let j := st.1
  let odd_num_edges := st.2
  let vert1 ← polygon[i]?
  let vert2 ← polygon[j]?
  let vert1_x := vert1.1
  let vert1_y := vert1.2
  let vert2_x := vert2.1
  let vert2_y := vert2.2
  if (gt vert1_y pos_y != gt vert2_y pos_y) &&
      lt pos_x ((vert2_x - vert1_x) * (pos_y - vert1_y) / (vert2_y - vert1_y) + vert1_x) then
    pure (i, !odd_num_edges)
  else
    pure (i, odd_num_edges)

/-- Source function `realitycore_isPointInPolygon` (lines 268-313) on doubles. -/
def isPointInPolygon (pos : F64 × F64 × F64) (polygon : List (F64 × F64)) : Option Bool :=
  let pos_x := pos.1
  let pos_y := pos.2.2
  let num_vertices := polygon.length
  ((List.range num_vertices).foldlM (isPointInPolygon.body pos_x pos_y polygon)
    (num_vertices - 1, false)).map Prod.snd

/-- Source function `REALITYCORE__nearestPointDistance` (lines 321-361) on doubles. -/
def nearestPointDistance (x y x1 y1 x2 y2 : F64) : F64 :=
  let a := x - x1
  let b := y - y1
  let c := x2 - x1
  let d := y2 - y1
  let dot := a * c + b * d
  let square_len := c * c + d * d
  let proj_dist := if ne (fin 0) square_len then dot / square_len else fin (-1)
  let near : F64 × F64 :=
    if gt (fin 0) proj_dist then (x1, y1)
    else if lt (fin 1) proj_dist then (x2, y2)
    else (x1 + proj_dist * c, y1 + proj_dist * d)
  let xx := near.1
  let yy := near.2
  sqrt (sq (x - xx) + sq (y - yy))

/-- One pass of the loop body of `realitycore_calcDistanceToPolygon` (lines 383-390) on
doubles; `fmin` is the C99 one or the one of lines 28-29. -/
def calcDistanceToPolygon.body (fmin : F64 → F64 → F64) (pos_x pos_y : F64)
    (polygon : List (F64 × F64)) (min_distance : F64) (i : Nat) : Option F64 := do
  let num_vertices := polygon.length
  let vert1 ← polygon[i]?
  let vert2 ← polygon[(i + 1) % num_vertices]?
  pure (fmin min_distance (nearestPointDistance pos_x pos_y vert1.1 vert1.2 vert2.1 vert2.2))

/-- Source function `realitycore_calcDistanceToPolygon` (lines 363-394) on doubles. -/
def calcDistanceToPolygon (fmin : F64 → F64 → F64) (pos : F64 × F64 × F64)
    (polygon : List (F64 × F64)) : Option F64 :=
  let pos_x := pos.1
  let pos_y := pos.2.2
  let num_vertices := polygon.length
  (List.range num_vertices).foldlM (calcDistanceToPolygon.body fmin pos_x pos_y polygon) dblMax

end F64

/-! ## Auxiliary definitions used by the proofs -/

/-- The edge-crossing test of lines 297-299 for the edge from `vert1` to `vert2`. -/
def crosses (pos_x pos_y : α) (vert1 vert2 : Point2 α) : Bool :=
  (decide (vert1.2 > pos_y) != decide (vert2.2 > pos_y)) &&
    decide (pos_x < (vert2.1 - vert1.1) * (pos_y - vert1.2) / (vert2.2 - vert1.2) + vert1.1)

/-- The value `REALITYCORE__nearestPointDistance` returns (lines 325-360), written with
the total division of the field. -/
def nearestPointValue (sqrt : α → α) (x y x1 y1 x2 y2 : α) : α :=
  let c := x2 - x1
  let d := y2 - y1
  let square_len := c * c + d * d
  let proj_dist := if 0 ≠ square_len then ((x - x1) * c + (y - y1) * d) / square_len else -1
  let near : α × α :=
    if 0 > proj_dist then (x1, y1)
    else if 1 < proj_dist then (x2, y2)
    else (x1 + proj_dist * c, y1 + proj_dist * d)
  sqrt ((x - near.1) ^ 2 + (y - near.2) ^ 2)

/-- The distance to the edge that starts at vertex `i` (lines 383-390). -/
def edgeValue (sqrt : α → α) (pos_x pos_y : α) (polygon : List (Point2 α)) (i : Nat) : α :=
  let vert1 := polygon.getD i (0, 0)
  let vert2 := polygon.getD ((i + 1) % polygon.length) (0, 0)
  nearestPointValue sqrt pos_x pos_y vert1.1 vert1.2 vert2.1 vert2.2

/-- Exclusive or of a list of flags, folded the way the loop toggles `odd_num_edges`. -/
def parity (flags : List Bool) : Bool := flags.foldl (fun odd c => odd != c) false

/-- The index the loop of `realitycore_isPointInPolygon` holds in `j` while it visits `i`:
`num_vertices - 1` for `i = 0`, else `i - 1`. -/
def prevIndex (num_vertices i : Nat) : Nat := if i = 0 then num_vertices - 1 else i - 1

/-- The crossing flag of the pass that visits vertex `i`. -/
def crossAt (pos_x pos_y : α) (polygon : List (Point2 α)) (i : Nat) : Bool :=
  crosses pos_x pos_y (polygon.getD i (0, 0))
    (polygon.getD (prevIndex polygon.length i) (0, 0))

/-! ## The point-in-polygon loop -/

/-- One loop pass never divides by zero: it sets `j` to `i` and flips the flag exactly when
the edge crosses. -/
theorem isPointInPolygon_body_eq (pos_x pos_y : α) (polygon : List (Point2 α))
    (i j : Nat) (odd : Bool) (vert1 vert2 : Point2 α)
    (h1 : polygon[i]? = some vert1) (h2 : polygon[j]? = some vert2) :
    isPointInPolygon.body pos_x pos_y polygon (j, odd) i =
      some (i, odd != crosses pos_x pos_y vert1 vert2) := by
  simp only [isPointInPolygon.body, h1, h2, Option.bind_eq_bind, Option.some_bind, crosses]
  by_cases hc : (decide (vert1.2 > pos_y) != decide (vert2.2 > pos_y)) = true
  · have hne : vert2.2 - vert1.2 ≠ 0 := by
      intro h0
      have : vert2.2 = vert1.2 := sub_eq_zero.mp h0
      simp [this] at hc
    rw [if_pos hc]
    simp only [fdiv, if_neg hne, Option.some_bind, hc, Bool.true_and]
    by_cases hx : pos_x < (vert2.1 - vert1.1) * (pos_y - vert1.2) / (vert2.2 - vert1.2) + vert1.1
    · simp [hx]
    · simp [hx]
  · rw [if_neg hc]
    simp only [Bool.not_eq_true] at hc
    simp [hc]

/-- The four loop passes on an axis-aligned rectangle, evaluated. -/
theorem isPointInPolygon_rectangle_eq {β : Type} [LinearOrderedField β]
    (x0 x1 y0 y1 px py pz : β) (hy : y0 < y1) :
    isPointInPolygon (px, py, pz) [(x0, y0), (x1, y0), (x1, y1), (x0, y1)] =
      some (decide (y0 ≤ pz ∧ pz < y1) && (decide (px < x0) != decide (px < x1))) := by
  have hr : List.range 4 = [0, 1, 2, 3] := by decide
  simp only [isPointInPolygon, List.length_cons, List.length_nil, hr, List.foldlM_cons,
    List.foldlM_nil]
  rw [isPointInPolygon_body_eq _ _ _ 0 _ _ (x0, y0) (x0, y1) rfl rfl]
  simp only [Option.bind_eq_bind, Option.some_bind]
  rw [isPointInPolygon_body_eq _ _ _ 1 0 _ (x1, y0) (x0, y0) rfl rfl]
  simp only [Option.bind_eq_bind, Option.some_bind]
  rw [isPointInPolygon_body_eq _ _ _ 2 1 _ (x1, y1) (x1, y0) rfl rfl]
  simp only [Option.bind_eq_bind, Option.some_bind]
  rw [isPointInPolygon_body_eq _ _ _ 3 2 _ (x0, y1) (x1, y1) rfl rfl]
  simp only [Option.bind_eq_bind, Option.some_bind, Option.map, Option.pure_def]
  simp only [crosses]
  by_cases h1 : pz < y0 <;> by_cases h2 : pz < y1 <;> by_cases h3 : px < x0 <;>
    by_cases h4 : px < x1 <;> simp [h1, h2, h3, h4, not_lt.mp, le_of_lt]
  all_goals exact absurd (lt_trans h1 hy) h2

/-- Appending one flag toggles the parity by that flag. -/
theorem parity_append_singleton (flags : List Bool) (c : Bool) :
    parity (flags ++ [c]) = (parity flags != c) := by
  simp [parity, List.foldl_append]

/-- The first `k` loop passes never fail; they leave `j` at the previous index and the flag
at the parity of the crossings seen so far. -/
theorem isPointInPolygon_loop_eq (pos_x pos_y : α) (polygon : List (Point2 α)) (k : Nat)
    (hk : k ≤ polygon.length) :
    (List.range k).foldlM (isPointInPolygon.body pos_x pos_y polygon)
        (polygon.length - 1, false) =
      some (prevIndex polygon.length k,
        parity ((List.range k).map (crossAt pos_x pos_y polygon))) := by
  induction k with
  | zero => rfl
  | succ k ih =>
    have hlt : k < polygon.length := hk
    have hpos : 0 < polygon.length := Nat.lt_of_le_of_lt (Nat.zero_le k) hlt
    have hprev : prevIndex polygon.length k < polygon.length := by
      unfold prevIndex
      split <;> omega
    have h1 : polygon[k]? = some (polygon.getD k (0, 0)) := by
      rw [List.getD_eq_getElem?_getD, List.getElem?_eq_getElem hlt]
      rfl
    have h2 : polygon[prevIndex polygon.length k]? =
        some (polygon.getD (prevIndex polygon.length k) (0, 0)) := by
      rw [List.getD_eq_getElem?_getD, List.getElem?_eq_getElem hprev]
      rfl
    rw [List.range_succ, List.foldlM_append, ih (Nat.le_of_lt hlt)]
    simp only [Option.bind_eq_bind, Option.some_bind, List.foldlM_cons, List.foldlM_nil,
      List.map_append, List.map_cons, List.map_nil, parity_append_singleton]
    rw [isPointInPolygon_body_eq pos_x pos_y polygon k _ _ _ _ h1 h2]
    simp [prevIndex, crossAt]

/-- Function `isPointInPolygon` always returns: the parity of the crossing flags of all
passes. -/
theorem isPointInPolygon_eq_parity (pos : Point3 α) (polygon : List (Point2 α)) :
    isPointInPolygon pos polygon =
      some (parity ((List.range polygon.length).map (crossAt pos.1 pos.2.2 polygon))) := by
  unfold isPointInPolygon
  simp only [isPointInPolygon_loop_eq pos.1 pos.2.2 polygon polygon.length (le_refl _),
    Option.map_some']

/-- The previous index is the index shifted by `num_vertices - 1` around the cycle. -/
theorem prevIndex_eq_mod (n i : Nat) (hi : i < n) : (i + (n - 1)) % n = prevIndex n i := by
  unfold prevIndex
  split
  · next h =>
    subst h
    simp only [Nat.zero_add]
    exact Nat.mod_eq_of_lt (by omega)
  · next h =>
    have h1 : i + (n - 1) = (i - 1) + n := by omega
    rw [h1, Nat.add_mod_right]
    exact Nat.mod_eq_of_lt (by omega)

/-- The crossing flags of the loop pair every vertex with its cyclic predecessor. -/
theorem crossFlags_eq_zipWith (pos_x pos_y : α) (polygon : List (Point2 α)) :
    (List.range polygon.length).map (crossAt pos_x pos_y polygon) =
      List.zipWith (crosses pos_x pos_y) polygon (polygon.rotate (polygon.length - 1)) := by
  apply List.ext_getElem
  · simp [List.length_rotate]
  · intro i h1 h2
    have hi : i < polygon.length := by simpa using h1
    have hprev : prevIndex polygon.length i < polygon.length := by
      unfold prevIndex
      split <;> omega
    simp only [List.getElem_map, List.getElem_range, List.getElem_zipWith,
      List.getElem_rotate, crossAt, prevIndex_eq_mod polygon.length i hi]
    rw [List.getD_eq_getElem _ _ hi, List.getD_eq_getElem _ _ hprev]

/-- A fold that starts from any flag is that flag toggled by the parity. -/
theorem foldl_bne_eq (flags : List Bool) (b : Bool) :
    flags.foldl (fun odd c => odd != c) b = (b != parity flags) := by
  induction flags generalizing b with
  | nil => simp [parity]
  | cons c l ih =>
    simp only [parity, List.foldl_cons]
    rw [ih, ih (false != c)]
    cases b <;> cases c <;> simp

/-- The parity of a list with one more flag in front. -/
theorem parity_cons (c : Bool) (flags : List Bool) :
    parity (c :: flags) = (c != parity flags) := by
  simp only [parity, List.foldl_cons]
  rw [foldl_bne_eq]
  simp [parity]

/-- The parity does not depend on the order of the flags. -/
theorem parity_perm (l₁ l₂ : List Bool) (p : l₁.Perm l₂) : parity l₁ = parity l₂ := by
  unfold parity
  apply List.Perm.foldl_eq' p
  intro x _ y _ z
  cases x <;> cases y <;> cases z <;> rfl

/-- No flag set, no toggle. -/
theorem parity_eq_false_of_all_false (flags : List Bool) (h : ∀ c ∈ flags, c = false) :
    parity flags = false := by
  induction flags with
  | nil => rfl
  | cons c l ih =>
    rw [parity_cons, h c (List.mem_cons_self c l),
      ih (fun d hd => h d (List.mem_cons_of_mem c hd))]
    rfl

/-- Unequal is symmetric on flags. -/
theorem bne_swap (a b : Bool) : (a != b) = (b != a) := by
  cases a <;> cases b <;> rfl

/-- The crossing test does not depend on the direction of the edge. -/
theorem crosses_comm (pos_x pos_y : α) (vert1 vert2 : Point2 α) :
    crosses pos_x pos_y vert1 vert2 = crosses pos_x pos_y vert2 vert1 := by
  unfold crosses
  by_cases hc : (decide (vert1.2 > pos_y) != decide (vert2.2 > pos_y)) = true
  · have hne : vert2.2 - vert1.2 ≠ 0 := by
      intro h0
      have : vert2.2 = vert1.2 := sub_eq_zero.mp h0
      simp [this] at hc
    have hne2 : vert1.2 - vert2.2 ≠ 0 := by
      intro h0
      exact hne (by linarith)
    have hc2 : (decide (vert2.2 > pos_y) != decide (vert1.2 > pos_y)) = true := by
      rw [bne_swap]
      exact hc
    have hx : (vert2.1 - vert1.1) * (pos_y - vert1.2) / (vert2.2 - vert1.2) + vert1.1 =
        (vert1.1 - vert2.1) * (pos_y - vert2.2) / (vert1.2 - vert2.2) + vert2.1 := by
      field_simp
      ring
    rw [hc, hc2, hx]
  · have hc2 : ¬ (decide (vert2.2 > pos_y) != decide (vert1.2 > pos_y)) = true := by
      rw [bne_swap]
      exact hc
    simp only [Bool.not_eq_true] at hc hc2
    rw [hc, hc2]
    rfl

/-- Function `isPointInPolygon` as the parity of the crossing tests of every vertex with its
cyclic predecessor. -/
theorem isPointInPolygon_eq_parity_zipWith (pos : Point3 α) (polygon : List (Point2 α)) :
    isPointInPolygon pos polygon =
      some (parity (List.zipWith (crosses pos.1 pos.2.2) polygon
        (polygon.rotate (polygon.length - 1)))) := by
  rw [isPointInPolygon_eq_parity, crossFlags_eq_zipWith]

/-- Rotating the vertex list does not change the parity of the crossing tests. -/
theorem parity_crossings_rotate (pos_x pos_y : α) (polygon : List (Point2 α)) (k : Nat) :
    parity (List.zipWith (crosses pos_x pos_y) (polygon.rotate k)
        ((polygon.rotate k).rotate ((polygon.rotate k).length - 1))) =
      parity (List.zipWith (crosses pos_x pos_y) polygon
        (polygon.rotate (polygon.length - 1))) := by
  have hrot : (polygon.rotate k).rotate ((polygon.rotate k).length - 1) =
      (polygon.rotate (polygon.length - 1)).rotate k := by
    rw [List.length_rotate, List.rotate_rotate, List.rotate_rotate, Nat.add_comm]
  rw [hrot, ← List.zipWith_rotate_distrib (crosses pos_x pos_y) polygon
    (polygon.rotate (polygon.length - 1)) k (List.length_rotate polygon _).symm]
  exact parity_perm _ _ (List.rotate_perm _ k)

/-- Reversing the vertex list does not change the parity of the crossing tests. -/
theorem parity_crossings_reverse (pos_x pos_y : α) (polygon : List (Point2 α)) :
    parity (List.zipWith (crosses pos_x pos_y) polygon.reverse
        (polygon.reverse.rotate (polygon.reverse.length - 1))) =
      parity (List.zipWith (crosses pos_x pos_y) polygon
        (polygon.rotate (polygon.length - 1))) := by
  cases hp : polygon with
  | nil => rfl
  | cons v rest =>
    rw [← hp]
    have hlen : 0 < polygon.length := by
      rw [hp]
      simp
    have hmod : (polygon.length - 1) % polygon.length = polygon.length - 1 :=
      Nat.mod_eq_of_lt (by omega)
    have hone : polygon.length - (polygon.length - 1) = 1 := by omega
    have hback : (polygon.rotate 1).rotate ((polygon.rotate 1).length - 1) = polygon := by
      rw [List.length_rotate, List.rotate_rotate]
      have : 1 + (polygon.length - 1) = polygon.length := by omega
      rw [this, List.rotate_length]
    rw [List.length_reverse, List.rotate_reverse, hmod, hone,
      ← List.reverse_zipWith (List.length_rotate polygon 1).symm,
      parity_perm _ _ (List.reverse_perm _),
      List.zipWith_comm_of_comm (crosses pos_x pos_y) (crosses_comm pos_x pos_y)]
    rw [← parity_crossings_rotate pos_x pos_y polygon 1, hback]

/-! ## The distance-to-polygon loop -/

/-- The source `fmin` is the minimum of the order. -/
theorem fmin_eq_min (a b : α) : fmin a b = min a b := by
  unfold fmin
  by_cases h : a < b
  · rw [if_pos h, min_eq_left (le_of_lt h)]
  · rw [if_neg h, min_eq_right (not_lt.mp h)]

/-- The guard `0 != square_len` keeps the division defined, so a value is always returned. -/
theorem nearestPointDistance_eq (sqrt : α → α) (x y x1 y1 x2 y2 : α) :
    REALITYCORE__nearestPointDistance sqrt x y x1 y1 x2 y2 =
      some (nearestPointValue sqrt x y x1 y1 x2 y2) := by
  unfold REALITYCORE__nearestPointDistance nearestPointValue
  by_cases h : (0 : α) ≠ (x2 - x1) * (x2 - x1) + (y2 - y1) * (y2 - y1)
  · simp only [if_pos h, fdiv, if_neg (Ne.symm h)]
    rfl
  · simp only [if_neg h]
    rfl

/-- One loop pass on an index in range takes the `fmin` with the distance to edge `i`. -/
theorem calcDistanceToPolygon_body_eq (sqrt : α → α) (pos_x pos_y : α)
    (polygon : List (Point2 α)) (m : α) (i : Nat) (hi : i < polygon.length) :
    calcDistanceToPolygon.body sqrt pos_x pos_y polygon m i =
      some (fmin m (edgeValue sqrt pos_x pos_y polygon i)) := by
  have hpos : 0 < polygon.length := Nat.lt_of_le_of_lt (Nat.zero_le i) hi
  have hk : (i + 1) % polygon.length < polygon.length := Nat.mod_lt _ hpos
  have h1 : polygon[i]? = some (polygon.getD i (0, 0)) := by
    rw [List.getD_eq_getElem?_getD, List.getElem?_eq_getElem hi]
    rfl
  have h2 : polygon[(i + 1) % polygon.length]? =
      some (polygon.getD ((i + 1) % polygon.length) (0, 0)) := by
    rw [List.getD_eq_getElem?_getD, List.getElem?_eq_getElem hk]
    rfl
  simp only [calcDistanceToPolygon.body, h1, h2, nearestPointDistance_eq, edgeValue,
    Option.bind_eq_bind, Option.some_bind, Option.pure_def]

/-- The loop over indices in range is a plain left fold of `fmin`. -/
theorem calcDistanceToPolygon_loop_eq (sqrt : α → α) (pos_x pos_y : α)
    (polygon : List (Point2 α)) (l : List Nat) (hl : ∀ i ∈ l, i < polygon.length) (m : α) :
    l.foldlM (calcDistanceToPolygon.body sqrt pos_x pos_y polygon) m =
      some (l.foldl (fun acc i => fmin acc (edgeValue sqrt pos_x pos_y polygon i)) m) := by
  induction l generalizing m with
  | nil => rfl
  | cons i l ih =>
    have hi : i < polygon.length := hl i (List.mem_cons_self i l)
    rw [List.foldlM_cons, calcDistanceToPolygon_body_eq sqrt pos_x pos_y polygon m i hi]
    simp only [Option.bind_eq_bind, Option.some_bind, List.foldl_cons]
    exact ih (fun k hk => hl k (List.mem_cons_of_mem i hk)) _

/-- Function `calcDistanceToPolygon` always returns: the fold of `fmin` over all edges,
started at `DBL_MAX`. -/
theorem calcDistanceToPolygon_eq_foldl (sqrt : α → α) (pos : Point3 α)
    (polygon : List (Point2 α)) :
    calcDistanceToPolygon sqrt pos polygon =
      some ((List.range polygon.length).foldl
        (fun acc i => fmin acc (edgeValue sqrt pos.1 pos.2.2 polygon i)) DBL_MAX) := by
  unfold calcDistanceToPolygon
  exact calcDistanceToPolygon_loop_eq sqrt pos.1 pos.2.2 polygon _
    (fun i hi => List.mem_range.mp hi) DBL_MAX

/-- Constant `DBL_MAX` is positive. -/
theorem DBL_MAX_pos : (0 : α) < DBL_MAX := by
  unfold DBL_MAX
  have h : (2 : α) ^ 971 < 2 ^ 1024 := pow_lt_pow_right₀ (by norm_num) (by norm_num)
  exact sub_pos.mpr h

/-- The running minimum is the start value or one of the values seen. -/
theorem foldl_fmin_eq_init_or_mem (f : Nat → α) (l : List Nat) (m : α) :
    l.foldl (fun acc i => fmin acc (f i)) m = m ∨
      ∃ k ∈ l, l.foldl (fun acc i => fmin acc (f i)) m = f k := by
  induction l generalizing m with
  | nil => exact Or.inl rfl
  | cons i l ih =>
    rw [List.foldl_cons]
    rcases ih (fmin m (f i)) with h | ⟨k, hk, h⟩
    · rw [h]
      unfold fmin
      by_cases hlt : m < f i
      · rw [if_pos hlt]
        exact Or.inl rfl
      · rw [if_neg hlt]
        exact Or.inr ⟨i, List.mem_cons_self i l, rfl⟩
    · exact Or.inr ⟨k, List.mem_cons_of_mem i hk, h⟩

/-- A running minimum of non-negative values from a non-negative start is non-negative. -/
theorem foldl_fmin_nonneg (f : Nat → α) (l : List Nat) (m : α) (hm : 0 ≤ m)
    (hf : ∀ i ∈ l, 0 ≤ f i) : 0 ≤ l.foldl (fun acc i => fmin acc (f i)) m := by
  rcases foldl_fmin_eq_init_or_mem f l m with h | ⟨k, hk, h⟩
  · rw [h]
    exact hm
  · rw [h]
    exact hf k hk

/-- A segment distance is a square root, hence not negative. -/
theorem nearestPointValue_nonneg (x y x1 y1 x2 y2 : ℝ) :
    0 ≤ nearestPointValue Real.sqrt x y x1 y1 x2 y2 := by
  unfold nearestPointValue
  exact Real.sqrt_nonneg _

/-- An edge distance is not negative. -/
theorem edgeValue_nonneg (pos_x pos_y : ℝ) (polygon : List (Point2 ℝ)) (i : Nat) :
    0 ≤ edgeValue Real.sqrt pos_x pos_y polygon i := by
  unfold edgeValue
  exact nearestPointValue_nonneg _ _ _ _ _ _

/-- Distance to a horizontal segment when the foot of the perpendicular is on it. -/
theorem nearestPointValue_horizontal (x y x1 y1 x2 : ℝ) (hc : x2 - x1 ≠ 0)
    (h0 : 0 ≤ (x - x1) / (x2 - x1)) (h1 : (x - x1) / (x2 - x1) ≤ 1) :
    nearestPointValue Real.sqrt x y x1 y1 x2 y1 = |y - y1| := by
  unfold nearestPointValue
  have hsl : (0 : ℝ) ≠ (x2 - x1) * (x2 - x1) + (y1 - y1) * (y1 - y1) := by
    have : (x2 - x1) * (x2 - x1) ≠ 0 := mul_ne_zero hc hc
    simpa using this.symm
  have hproj : ((x - x1) * (x2 - x1) + (y - y1) * (y1 - y1)) /
      ((x2 - x1) * (x2 - x1) + (y1 - y1) * (y1 - y1)) = (x - x1) / (x2 - x1) := by
    field_simp
    ring
  simp only [if_pos hsl, hproj, gt_iff_lt, if_neg (not_lt.mpr h0), if_neg (not_lt.mpr h1)]
  have hx : x - (x1 + (x - x1) / (x2 - x1) * (x2 - x1)) = 0 := by
    field_simp
  have hy : y - (y1 + (x - x1) / (x2 - x1) * (y1 - y1)) = y - y1 := by
    ring
  rw [hx, hy]
  simp [Real.sqrt_sq_eq_abs]

/-- Distance to a vertical segment when the foot of the perpendicular is on it. -/
theorem nearestPointValue_vertical (x y x1 y1 y2 : ℝ) (hd : y2 - y1 ≠ 0)
    (h0 : 0 ≤ (y - y1) / (y2 - y1)) (h1 : (y - y1) / (y2 - y1) ≤ 1) :
    nearestPointValue Real.sqrt x y x1 y1 x1 y2 = |x - x1| := by
  unfold nearestPointValue
  have hsl : (0 : ℝ) ≠ (x1 - x1) * (x1 - x1) + (y2 - y1) * (y2 - y1) := by
    have : (y2 - y1) * (y2 - y1) ≠ 0 := mul_ne_zero hd hd
    simpa using this.symm
  have hproj : ((x - x1) * (x1 - x1) + (y - y1) * (y2 - y1)) /
      ((x1 - x1) * (x1 - x1) + (y2 - y1) * (y2 - y1)) = (y - y1) / (y2 - y1) := by
    field_simp
    ring
  simp only [if_pos hsl, hproj, gt_iff_lt, if_neg (not_lt.mpr h0), if_neg (not_lt.mpr h1)]
  have hx : x - (x1 + (y - y1) / (y2 - y1) * (x1 - x1)) = x - x1 := by
    ring
  have hy : y - (y1 + (y - y1) / (y2 - y1) * (y2 - y1)) = 0 := by
    field_simp
  rw [hx, hy]
  simp [Real.sqrt_sq_eq_abs]

/-- The four edge distances of an axis-aligned rectangle, seen from a point of the closed
rectangle, in the order the loop visits them. -/
theorem calcDistanceToPolygon_rectangle_fold (x0 x1 y0 y1 px py pz : ℝ)
    (hx : x0 < x1) (hy : y0 < y1)
    (h1 : x0 ≤ px) (h2 : px ≤ x1) (h3 : y0 ≤ pz) (h4 : pz ≤ y1) :
    calcDistanceToPolygon Real.sqrt (px, py, pz) [(x0, y0), (x1, y0), (x1, y1), (x0, y1)] =
      some (fmin (fmin (fmin (fmin DBL_MAX (pz - y0)) (x1 - px)) (y1 - pz)) (px - x0)) := by
  have hr : List.range 4 = [0, 1, 2, 3] := by decide
  have e0 : edgeValue Real.sqrt px pz [(x0, y0), (x1, y0), (x1, y1), (x0, y1)] 0 = pz - y0 := by
    have h := nearestPointValue_horizontal px pz x0 y0 x1 (sub_ne_zero.mpr (ne_of_gt hx))
      (div_nonneg (sub_nonneg.mpr h1) (le_of_lt (sub_pos.mpr hx)))
      ((div_le_one (sub_pos.mpr hx)).mpr (by linarith))
    rw [abs_of_nonneg (sub_nonneg.mpr h3)] at h
    simpa [edgeValue] using h
  have e1 : edgeValue Real.sqrt px pz [(x0, y0), (x1, y0), (x1, y1), (x0, y1)] 1 = x1 - px := by
    have h := nearestPointValue_vertical px pz x1 y0 y1 (sub_ne_zero.mpr (ne_of_gt hy))
      (div_nonneg (sub_nonneg.mpr h3) (le_of_lt (sub_pos.mpr hy)))
      ((div_le_one (sub_pos.mpr hy)).mpr (by linarith))
    rw [abs_of_nonpos (sub_nonpos.mpr h2), neg_sub] at h
    simpa [edgeValue] using h
  have e2 : edgeValue Real.sqrt px pz [(x0, y0), (x1, y0), (x1, y1), (x0, y1)] 2 = y1 - pz := by
    have h := nearestPointValue_horizontal px pz x1 y1 x0 (sub_ne_zero.mpr (ne_of_lt hx))
      (div_nonneg_of_nonpos (sub_nonpos.mpr h2) (le_of_lt (sub_neg.mpr hx)))
      ((div_le_one_of_neg (sub_neg.mpr hx)).mpr (by linarith))
    rw [abs_of_nonpos (sub_nonpos.mpr h4), neg_sub] at h
    simpa [edgeValue] using h
  have e3 : edgeValue Real.sqrt px pz [(x0, y0), (x1, y0), (x1, y1), (x0, y1)] 3 = px - x0 := by
    have h := nearestPointValue_vertical px pz x0 y1 y0 (sub_ne_zero.mpr (ne_of_lt hy))
      (div_nonneg_of_nonpos (sub_nonpos.mpr h4) (le_of_lt (sub_neg.mpr hy)))
      ((div_le_one_of_neg (sub_neg.mpr hy)).mpr (by linarith))
    rw [abs_of_nonneg (sub_nonneg.mpr h1)] at h
    simpa [edgeValue] using h
  rw [calcDistanceToPolygon_eq_foldl]
  simp only [List.length_cons, List.length_nil, hr, List.foldl_cons, List.foldl_nil, e0, e1, e2,
    e3]

/-- The value of `REALITYCORE__nearestPointDistance` is the distance to a point of the
closed segment, and no point of the segment is nearer. -/
theorem nearestPointValue_is_min (x y x1 y1 x2 y2 : ℝ) :
    (∀ t : ℝ, 0 ≤ t → t ≤ 1 → nearestPointValue Real.sqrt x y x1 y1 x2 y2 ≤
      Real.sqrt ((x - (x1 + t * (x2 - x1))) ^ 2 + (y - (y1 + t * (y2 - y1))) ^ 2)) ∧
    (∃ t : ℝ, 0 ≤ t ∧ t ≤ 1 ∧ nearestPointValue Real.sqrt x y x1 y1 x2 y2 =
      Real.sqrt ((x - (x1 + t * (x2 - x1))) ^ 2 + (y - (y1 + t * (y2 - y1))) ^ 2)) := by
  unfold nearestPointValue
  by_cases hL : (0 : ℝ) ≠ (x2 - x1) * (x2 - x1) + (y2 - y1) * (y2 - y1)
  · have hLpos : 0 < (x2 - x1) * (x2 - x1) + (y2 - y1) * (y2 - y1) :=
      lt_of_le_of_ne (add_nonneg (mul_self_nonneg _) (mul_self_nonneg _)) hL
    simp only [if_pos hL]
    generalize hp : ((x - x1) * (x2 - x1) + (y - y1) * (y2 - y1)) /
      ((x2 - x1) * (x2 - x1) + (y2 - y1) * (y2 - y1)) = p
    have hdot : (x - x1) * (x2 - x1) + (y - y1) * (y2 - y1) =
        p * ((x2 - x1) * (x2 - x1) + (y2 - y1) * (y2 - y1)) := by
      rw [← hp]
      field_simp
    by_cases h0 : 0 > p
    · simp only [if_pos h0]
      refine ⟨?_, 0, le_refl 0, zero_le_one, by simp⟩
      intro t ht0 ht1
      apply Real.sqrt_le_sqrt
      have hneg : p * ((x2 - x1) * (x2 - x1) + (y2 - y1) * (y2 - y1)) < 0 :=
        mul_neg_of_neg_of_pos h0 hLpos
      nlinarith [mul_nonneg ht0 (le_of_lt hLpos), mul_nonneg ht0 ht0,
        mul_nonneg (mul_nonneg ht0 ht0) (le_of_lt hLpos)]
    · simp only [if_neg h0]
      by_cases h1 : 1 < p
      · simp only [if_pos h1]
        refine ⟨?_, 1, zero_le_one, le_refl 1, by simp⟩
        intro t ht0 ht1
        apply Real.sqrt_le_sqrt
        have hgt : (x2 - x1) * (x2 - x1) + (y2 - y1) * (y2 - y1) <
            p * ((x2 - x1) * (x2 - x1) + (y2 - y1) * (y2 - y1)) := by
          nlinarith
        nlinarith [mul_nonneg (sub_nonneg.mpr ht1) (le_of_lt hLpos),
          mul_nonneg (sub_nonneg.mpr ht1) (sub_nonneg.mpr ht1),
          mul_nonneg (mul_nonneg (sub_nonneg.mpr ht1) (sub_nonneg.mpr ht1)) (le_of_lt hLpos)]
      · simp only [if_neg h1]
        refine ⟨?_, p, not_lt.mp h0, not_lt.mp h1, rfl⟩
        intro t ht0 ht1
        apply Real.sqrt_le_sqrt
        nlinarith [mul_nonneg (sq_nonneg (t - p)) (le_of_lt hLpos)]
  · simp only [if_neg hL]
    have hL0 : (x2 - x1) * (x2 - x1) + (y2 - y1) * (y2 - y1) = 0 := by
      by_contra h
      exact hL (Ne.symm h)
    have hcd := (mul_self_add_mul_self_eq_zero.mp hL0)
    have hneg : (0 : ℝ) > -1 := by norm_num
    simp only [if_pos hneg, hcd.1, hcd.2, mul_zero, add_zero]
    refine ⟨fun t _ _ => le_refl _, 0, le_refl 0, zero_le_one, ?_⟩
    trivial

/-- Rounding reproduces well-known doubles: `0.1`, the overflow threshold, the least
subnormal, ties to even, `sqrt 2`, and the NaN cases `0 * inf` and `inf - inf`. -/
theorem F64_known_values :
    F64.ofDecimal (1 / 10) = F64.fin (3602879701896397 / 2 ^ 55) ∧
    F64.round (2 ^ 1024 - 2 ^ 970) = F64.inf false ∧
    F64.round (2 ^ 1024 - 2 ^ 970 - 1) = F64.dblMax ∧
    F64.round (1 / 2 ^ 1075) = F64.fin 0 ∧
    F64.round (3 / 2 ^ 1076) = F64.fin (1 / 2 ^ 1074) ∧
    F64.fin 1 + F64.fin (1 / 2 ^ 53) = F64.fin 1 ∧
    F64.fin 1 + F64.fin (3 / 2 ^ 53) = F64.fin (1 + 1 / 2 ^ 51) ∧
    F64.sqrt (F64.fin 2) = F64.fin (6369051672525773 / 2 ^ 52) ∧
    F64.fin 0 * F64.inf false = F64.nan ∧
    F64.inf false - F64.inf false = F64.nan := by
  decide!

/-! ## Proximity tests -/

/-- C1: `isClose p q d` is true exactly when `calcDistanceSquared p q ≤ d * d`; the bound is
inclusive, and `isClose (0,0,0) (3,0,4) 5` is true. -/
theorem isClose_iff_distanceSquared_le :
    (∀ (β : Type) [LinearOrderedField β] (p q : Point3 β) (d : β),
      isClose p q d = true ↔ calcDistanceSquared p q ≤ d * d) ∧
    isClose ((0, 0, 0) : Point3 ℚ) (3, 0, 4) 5 = true := by
  refine ⟨?_, ?_⟩
  · intro β _ p q d
    simp [isClose, sq]
  · simp [isClose, calcDistanceSquared]
    norm_num

/-- C2: `isCloseHoriz p q d` is true exactly when `calcHorizDistanceSquared p q ≤ d * d`
(inclusive bound), and the squared horizontal distance does not depend on either `y`. -/
theorem isCloseHoriz_iff_horizDistanceSquared_le :
    (∀ (β : Type) [LinearOrderedField β] (p q : Point3 β) (d : β),
      isCloseHoriz p q d = true ↔ calcHorizDistanceSquared p q ≤ d * d) ∧
    (∀ (β : Type) [LinearOrderedField β] (x1 y1 z1 x2 y2 z2 d : β),
      isCloseHoriz (x1, y1, z1) (x2, y2, z2) d = isClose (x1, 0, z1) (x2, 0, z2) d) := by
  refine ⟨?_, ?_⟩
  · intro β _ p q d
    simp [isCloseHoriz, sq]
  · intro β _ x1 y1 z1 x2 y2 z2 d
    simp [isCloseHoriz, isClose, calcHorizDistanceSquared, calcDistanceSquared]


/-! ## Point in polygon -/

/-- C4: for every position and every polygon, `calcDistanceToPolygon` returns a value and
that value is not negative. -/
theorem calcDistanceToPolygon_nonneg (pos : Point3 ℝ) (polygon : List (Point2 ℝ)) :
    ∃ r : ℝ, calcDistanceToPolygon Real.sqrt pos polygon = some r ∧ 0 ≤ r := by
  refine ⟨_, calcDistanceToPolygon_eq_foldl Real.sqrt pos polygon, ?_⟩
  exact foldl_fmin_nonneg _ _ _ (le_of_lt DBL_MAX_pos)
    (fun i _ => edgeValue_nonneg pos.1 pos.2.2 polygon i)

/-- C5: at the centroid of the unit square, which `isPointInPolygon` reports as inside,
`calcDistanceToPolygon` returns `1/2`, which is not negative. -/
theorem calcDistanceToPolygon_inside_not_negative :
    isPointInPolygon ((1 / 2 : ℝ), (0 : ℝ), (1 / 2 : ℝ))
      [(0, 0), (1, 0), (1, 1), (0, 1)] = some true ∧
    calcDistanceToPolygon Real.sqrt ((1 / 2 : ℝ), (0 : ℝ), (1 / 2 : ℝ))
      [(0, 0), (1, 0), (1, 1), (0, 1)] = some (1 / 2) ∧
    ¬ ((1 / 2 : ℝ) < 0) := by
  refine ⟨?_, ?_, by norm_num⟩
  · rw [isPointInPolygon_rectangle_eq 0 1 0 1 (1 / 2) 0 (1 / 2) (by norm_num)]
    norm_num
  · rw [calcDistanceToPolygon_rectangle_fold 0 1 0 1 (1 / 2) 0 (1 / 2) (by norm_num)
      (by norm_num) (by norm_num) (by norm_num) (by norm_num) (by norm_num)]
    norm_num [fmin, DBL_MAX]

/-- C6 as amended: in exact arithmetic, for an axis-aligned rectangle
`[(x0,y0),(x1,y0),(x1,y1),(x0,y1)]` with `x0 < x1`, `y0 < y1` (`x0` and `x1` in the range
of a double) and a position whose `(x, z)` is inside or on it, `calcDistanceToPolygon`
returns `min (x - x0, x1 - x, z - y0, y1 - z)`. -/
theorem calcDistanceToPolygon_rectangle (x0 x1 y0 y1 px py pz : ℝ)
    (hx : x0 < x1) (hy : y0 < y1) (hlo : -DBL_MAX ≤ x0) (hhi : x1 ≤ DBL_MAX)
    (h1 : x0 ≤ px) (h2 : px ≤ x1) (h3 : y0 ≤ pz) (h4 : pz ≤ y1) :
    calcDistanceToPolygon Real.sqrt (px, py, pz) [(x0, y0), (x1, y0), (x1, y1), (x0, y1)] =
      some (min (min (px - x0) (x1 - px)) (min (pz - y0) (y1 - pz))) := by
  rw [calcDistanceToPolygon_rectangle_fold x0 x1 y0 y1 px py pz hx hy h1 h2 h3 h4]
  simp only [fmin_eq_min]
  have hre : min (min (min (min (DBL_MAX : ℝ) (pz - y0)) (x1 - px)) (y1 - pz)) (px - x0) =
      min DBL_MAX (min (min (px - x0) (x1 - px)) (min (pz - y0) (y1 - pz))) := by
    simp only [min_assoc, min_comm, min_left_comm]
  have hrange : min (min (px - x0) (x1 - px)) (min (pz - y0) (y1 - pz)) ≤ DBL_MAX := by
    refine le_trans (min_le_left _ _) ?_
    by_cases hp : px ≤ 0
    · exact le_trans (min_le_left _ _) (by linarith)
    · exact le_trans (min_le_right _ _) (by linarith)
  rw [hre, min_eq_right hrange]

/-- Witness for C6: the centroid of the unit square is at distance exactly `1/2`. -/
theorem calcDistanceToPolygon_rectangle_witness :
    ((0 : ℝ) < 1) ∧ (-DBL_MAX ≤ (0 : ℝ)) ∧ ((1 : ℝ) ≤ DBL_MAX) ∧
    calcDistanceToPolygon Real.sqrt ((1 / 2 : ℝ), (0 : ℝ), (1 / 2 : ℝ))
      [(0, 0), (1, 0), (1, 1), (0, 1)] = some (1 / 2) := by
  have hlo : -DBL_MAX ≤ (0 : ℝ) := by norm_num [DBL_MAX]
  have hhi : (1 : ℝ) ≤ DBL_MAX := by norm_num [DBL_MAX]
  refine ⟨by norm_num, hlo, hhi, ?_⟩
  have h := calcDistanceToPolygon_rectangle 0 1 0 1 (1 / 2) 0 (1 / 2) (by norm_num)
    (by norm_num) hlo hhi (by norm_num) (by norm_num) (by norm_num) (by norm_num)
  norm_num at h
  exact h

/-- C6 refuted on doubles: the position `(1.4, _, 1.8)` lies on the bottom side of the
rectangle `[(0,1.8),(1.5,1.8),(1.5,1.9),(0,1.9)]`, so the claimed minimum is `z - y0 = 0`,
yet the code returns `2^-52` (the projected foot `xx` is rounded), with either `fmin`. -/
theorem calcDistanceToPolygon_rectangle_fails_on_doubles :
    F64.lt (F64.fin 0) (F64.ofDecimal (14 / 10)) = true ∧
    F64.lt (F64.ofDecimal (14 / 10)) (F64.ofDecimal (15 / 10)) = true ∧
    F64.ofDecimal (18 / 10) - F64.ofDecimal (18 / 10) = F64.fin 0 ∧
    F64.calcDistanceToPolygon F64.fmin
      (F64.ofDecimal (14 / 10), F64.fin 0, F64.ofDecimal (18 / 10))
      [(F64.fin 0, F64.ofDecimal (18 / 10)), (F64.ofDecimal (15 / 10), F64.ofDecimal (18 / 10)),
       (F64.ofDecimal (15 / 10), F64.ofDecimal (19 / 10)), (F64.fin 0, F64.ofDecimal (19 / 10))] =
      some (F64.fin (1 / 2 ^ 52)) ∧
    F64.calcDistanceToPolygon F64.fminMsvc
      (F64.ofDecimal (14 / 10), F64.fin 0, F64.ofDecimal (18 / 10))
      [(F64.fin 0, F64.ofDecimal (18 / 10)), (F64.ofDecimal (15 / 10), F64.ofDecimal (18 / 10)),
       (F64.ofDecimal (15 / 10), F64.ofDecimal (19 / 10)), (F64.fin 0, F64.ofDecimal (19 / 10))] =
      some (F64.fin (1 / 2 ^ 52)) := by
  decide!

/-- C10: `calcDistance p q = calcDistance q p` and `calcDistance p p = 0`. -/
theorem calcDistance_symm_and_self :
    (∀ p q : Point3 ℝ, calcDistance Real.sqrt p q = calcDistance Real.sqrt q p) ∧
    (∀ p : Point3 ℝ, calcDistance Real.sqrt p p = 0) := by
  refine ⟨?_, ?_⟩
  · rintro ⟨x1, y1, z1⟩ ⟨x2, y2, z2⟩
    simp only [calcDistance]
    exact congrArg Real.sqrt (by ring)
  · rintro ⟨x, y, z⟩
    simp [calcDistance]

/-! ## Distance primitives, continued -/

/-- C11: `calcDistanceSquared p q` is the square of `calcDistance p q`, and `calcDistance p q`
is the non-negative square root of `calcDistanceSquared p q`. -/
theorem calcDistanceSquared_eq_sq_calcDistance :
    (∀ p q : Point3 ℝ, calcDistanceSquared p q = (calcDistance Real.sqrt p q) ^ 2) ∧
    (∀ p q : Point3 ℝ, calcDistance Real.sqrt p q = Real.sqrt (calcDistanceSquared p q)) ∧
    (∀ p q : Point3 ℝ, 0 ≤ calcDistance Real.sqrt p q) := by
  refine ⟨?_, ?_, ?_⟩
  · rintro ⟨x1, y1, z1⟩ ⟨x2, y2, z2⟩
    simp only [calcDistance, calcDistanceSquared]
    rw [Real.sq_sqrt]
    have h1 := mul_self_nonneg (x1 - x2)
    have h2 := mul_self_nonneg (y1 - y2)
    have h3 := mul_self_nonneg (z1 - z2)
    linarith
  · rintro ⟨x1, y1, z1⟩ ⟨x2, y2, z2⟩
    rfl
  · rintro ⟨x1, y1, z1⟩ ⟨x2, y2, z2⟩
    exact Real.sqrt_nonneg _

/-- C12: `calcHorizDistance` does not change when the `y` of either point is replaced, and
it equals `sqrt (dx^2 + dz^2)`. -/
theorem calcHorizDistance_ignores_y :
    (∀ (x1 y1 z1 x2 y2 z2 ya yb : ℝ),
      calcHorizDistance Real.sqrt (x1, ya, z1) (x2, yb, z2) =
        calcHorizDistance Real.sqrt (x1, y1, z1) (x2, y2, z2)) ∧
    (∀ (x1 y1 z1 x2 y2 z2 : ℝ),
      calcHorizDistance Real.sqrt (x1, y1, z1) (x2, y2, z2) =
        Real.sqrt ((x1 - x2) ^ 2 + (z1 - z2) ^ 2)) := by
  refine ⟨?_, ?_⟩
  · intro x1 y1 z1 x2 y2 z2 ya yb
    rfl
  · intro x1 y1 z1 x2 y2 z2
    simp only [calcHorizDistance, sq]

/-! ## Polygon operations and the height of the position -/

/-- C13: two positions with the same `x` and `z` get the same answer from
`isPointInPolygon` and from `calcDistanceToPolygon`, whatever their `y`. -/
theorem polygon_operations_ignore_y :
    (∀ (β : Type) [LinearOrderedField β] (x y yb z : β) (polygon : List (Point2 β)),
      isPointInPolygon (x, y, z) polygon = isPointInPolygon (x, yb, z) polygon) ∧
    (∀ (β : Type) [LinearOrderedField β] (sqrt : β → β) (x y yb z : β)
        (polygon : List (Point2 β)),
      calcDistanceToPolygon sqrt (x, y, z) polygon =
        calcDistanceToPolygon sqrt (x, yb, z) polygon) := by
  refine ⟨?_, ?_⟩
  · intro β _ x y yb z polygon
    rfl
  · intro β _ sqrt x y yb z polygon
    rfl

/-! ## The empty polygon -/

/-- C14, as the code behaves: with an empty vertex list no error is signalled;
`isPointInPolygon` returns false and `calcDistanceToPolygon` returns `DBL_MAX`. -/
theorem empty_polygon_returns :
    (∀ (β : Type) [LinearOrderedField β] (pos : Point3 β),
      isPointInPolygon pos [] = some false) ∧
    (∀ (β : Type) [LinearOrderedField β] (sqrt : β → β) (pos : Point3 β),
      calcDistanceToPolygon sqrt pos [] = some DBL_MAX) := by
  refine ⟨?_, ?_⟩
  · intro β _ pos
    rfl
  · intro β _ sqrt pos
    rfl

/-- C14 refuted: at the position `(0, 0, 0)` both operations return a value on the empty
polygon, so neither signals an error. -/
theorem empty_polygon_not_rejected :
    (isPointInPolygon ((0 : ℝ), (0 : ℝ), (0 : ℝ)) [] = some false ∧
      isPointInPolygon ((0 : ℝ), (0 : ℝ), (0 : ℝ)) [] ≠ none) ∧
    (calcDistanceToPolygon Real.sqrt ((0 : ℝ), (0 : ℝ), (0 : ℝ)) [] = some DBL_MAX ∧
      calcDistanceToPolygon Real.sqrt ((0 : ℝ), (0 : ℝ), (0 : ℝ)) [] ≠ none) := by
  have h1 : isPointInPolygon ((0 : ℝ), (0 : ℝ), (0 : ℝ)) [] = some false := rfl
  have h2 : calcDistanceToPolygon Real.sqrt ((0 : ℝ), (0 : ℝ), (0 : ℝ)) [] = some DBL_MAX :=
    rfl
  refine ⟨⟨h1, ?_⟩, ⟨h2, ?_⟩⟩
  · rw [h1]
    exact Option.some_ne_none _
  · rw [h2]
    exact Option.some_ne_none _

/-! ## Sign of the threshold -/

/-- C20: `isClose` and `isCloseHoriz` give the same answer for `-d` and `d`, so a negative
threshold can return true: `isClose p p (-1)` is true. -/
theorem isClose_ignores_threshold_sign :
    (∀ (β : Type) [LinearOrderedField β] (p q : Point3 β) (d : β),
      isClose p q (-d) = isClose p q d) ∧
    (∀ (β : Type) [LinearOrderedField β] (p q : Point3 β) (d : β),
      isCloseHoriz p q (-d) = isCloseHoriz p q d) ∧
    (∀ (β : Type) [LinearOrderedField β] (p : Point3 β), isClose p p (-1) = true) := by
  refine ⟨?_, ?_, ?_⟩
  · intro β _ p q d
    simp only [isClose, neg_sq]
  · intro β _ p q d
    simp only [isCloseHoriz, neg_sq]
  · rintro β _ ⟨x, y, z⟩
    simp [isClose, calcDistanceSquared]
/-! ## Segment distance and the minimum over the edges -/

/-- C15 as amended: in exact arithmetic, `REALITYCORE__nearestPointDistance` returns the
minimum distance from `(x, y)` to the closed segment from `(x1, y1)` to `(x2, y2)`: it is at
most the distance to every point `(x1 + t*(x2-x1), y1 + t*(y2-y1))` with `t` in `[0, 1]` and
equals it for one such `t`, also when the two end points coincide. -/
theorem nearestPointDistance_is_segment_minimum (x y x1 y1 x2 y2 : ℝ) :
    ∃ r : ℝ, REALITYCORE__nearestPointDistance Real.sqrt x y x1 y1 x2 y2 = some r ∧
      (∀ t : ℝ, 0 ≤ t → t ≤ 1 →
        r ≤ Real.sqrt ((x - (x1 + t * (x2 - x1))) ^ 2 + (y - (y1 + t * (y2 - y1))) ^ 2)) ∧
      (∃ t : ℝ, 0 ≤ t ∧ t ≤ 1 ∧
        r = Real.sqrt ((x - (x1 + t * (x2 - x1))) ^ 2 + (y - (y1 + t * (y2 - y1))) ^ 2)) :=
  ⟨_, nearestPointDistance_eq Real.sqrt x y x1 y1 x2 y2,
    nearestPointValue_is_min x y x1 y1 x2 y2⟩

/-- C15 refuted on doubles: `(1.4, 1.8)` lies on the segment from `(0, 1.8)` to
`(1.5, 1.8)` (at `t = 1.4 / 1.5`, where the distance is 0), yet
`REALITYCORE__nearestPointDistance` returns `2^-52`, which is more. -/
theorem nearestPointDistance_fails_on_doubles :
    F64.ofDecimal (14 / 10) = F64.fin (6305039478318694 / 2 ^ 52) ∧
    F64.ofDecimal (18 / 10) = F64.fin (8106479329266893 / 2 ^ 52) ∧
    F64.ofDecimal (15 / 10) = F64.fin (3 / 2) ∧
    F64.nearestPointDistance (F64.ofDecimal (14 / 10)) (F64.ofDecimal (18 / 10))
      (F64.fin 0) (F64.ofDecimal (18 / 10)) (F64.ofDecimal (15 / 10)) (F64.ofDecimal (18 / 10)) =
      F64.fin (1 / 2 ^ 52) ∧
    (∃ t : ℚ, 0 ≤ t ∧ t ≤ 1 ∧
      (6305039478318694 / 2 ^ 52 - (0 + t * (3 / 2 - 0))) ^ 2 +
        (8106479329266893 / 2 ^ 52 -
          (8106479329266893 / 2 ^ 52 +
            t * (8106479329266893 / 2 ^ 52 - 8106479329266893 / 2 ^ 52))) ^ 2 = 0) := by
  refine ⟨by decide!, by decide!, by decide!, by decide!, ?_⟩
  exact ⟨6305039478318694 / 2 ^ 52 / (3 / 2), by norm_num, by norm_num, by norm_num⟩

/-- C17: in `isPointInPolygon` the division by `vert_j.y - vert_i.y` is evaluated only with
a divisor that is not zero: when the crossing condition holds the two heights differ and the
division succeeds, when it does not hold the pass leaves the flag as it is without dividing
(also with a zero divisor), and the whole function always returns a boolean. -/
theorem isPointInPolygon_division_safe :
    (∀ (β : Type) [LinearOrderedField β] (pos_x pos_y : β) (polygon : List (Point2 β))
        (i j : Nat) (odd : Bool) (vert1 vert2 : Point2 β),
      polygon[i]? = some vert1 → polygon[j]? = some vert2 →
      ((decide (vert1.2 > pos_y) != decide (vert2.2 > pos_y)) = true →
        vert2.2 ≠ vert1.2 ∧
        fdiv ((vert2.1 - vert1.1) * (pos_y - vert1.2)) (vert2.2 - vert1.2) =
          some ((vert2.1 - vert1.1) * (pos_y - vert1.2) / (vert2.2 - vert1.2)) ∧
        isPointInPolygon.body pos_x pos_y polygon (j, odd) i =
          some (i, odd != decide (pos_x <
            (vert2.1 - vert1.1) * (pos_y - vert1.2) / (vert2.2 - vert1.2) + vert1.1))) ∧
      ((decide (vert1.2 > pos_y) != decide (vert2.2 > pos_y)) = false →
        isPointInPolygon.body pos_x pos_y polygon (j, odd) i = some (i, odd)) ∧
      (vert2.2 - vert1.2 = 0 →
        isPointInPolygon.body pos_x pos_y polygon (j, odd) i = some (i, odd))) ∧
    (∀ (β : Type) [LinearOrderedField β] (pos : Point3 β) (polygon : List (Point2 β)),
      ∃ b : Bool, isPointInPolygon pos polygon = some b) := by
  refine ⟨?_, ?_⟩
  · intro β _ pos_x pos_y polygon i j odd vert1 vert2 h1 h2
    have hbody := isPointInPolygon_body_eq pos_x pos_y polygon i j odd vert1 vert2 h1 h2
    refine ⟨?_, ?_, ?_⟩
    · intro hc
      have hne : vert2.2 ≠ vert1.2 := by
        intro h0
        simp [h0] at hc
      refine ⟨hne, ?_, ?_⟩
      · simp only [fdiv, if_neg (sub_ne_zero.mpr hne)]
      · rw [hbody]
        simp only [crosses, hc, Bool.true_and]
    · intro hc
      rw [hbody]
      simp only [crosses, hc, Bool.false_and, Bool.bne_false]
    · intro h0
      have heq : vert2.2 = vert1.2 := sub_eq_zero.mp h0
      rw [hbody]
      simp [crosses, heq]
  · intro β _ pos polygon
    exact ⟨_, isPointInPolygon_eq_parity pos polygon⟩

/-- C19: reversing the vertex list or rotating it cyclically does not change the answer of
`isPointInPolygon`. -/
theorem isPointInPolygon_reverse_rotate :
    (∀ (β : Type) [LinearOrderedField β] (pos : Point3 β) (polygon : List (Point2 β)),
      isPointInPolygon pos polygon.reverse = isPointInPolygon pos polygon) ∧
    (∀ (β : Type) [LinearOrderedField β] (pos : Point3 β) (polygon : List (Point2 β))
        (k : Nat),
      isPointInPolygon pos (polygon.rotate k) = isPointInPolygon pos polygon) := by
  refine ⟨?_, ?_⟩
  · intro β _ pos polygon
    rw [isPointInPolygon_eq_parity_zipWith, isPointInPolygon_eq_parity_zipWith,
      parity_crossings_reverse]
  · intro β _ pos polygon k
    rw [isPointInPolygon_eq_parity_zipWith, isPointInPolygon_eq_parity_zipWith,
      parity_crossings_rotate]

end Realitycore
